import Mathlib

/-!
Verification development for the `presentrs` terminal markdown slideshow tool
(`src/main.rs`). The markdown tokenizer (pulldown-cmark), the syntax
highlighting engine (syntect) and the display-width function (unicode-width)
are external collaborators; they are modelled as parameters or simple
functions, while every definition below that carries a source name is a
direct shallow embedding of the corresponding Rust item.
-/

namespace Presentrs

/-- Ratatui colors used by `main.rs` (subset of `ratatui::style::Color`). -/
inductive RColor where
  | white
  | cyan
  | blue
  | green
  | yellow
  | gray
  | rgb (r g b : Nat)
deriving DecidableEq

/-- Ratatui `Style`: `Style::default()` has no foreground/background and no
modifiers; `.fg c` sets the foreground, `.add_modifier` sets bold/italic. -/
structure RStyle where
  fg : Option RColor := none
  bg : Option RColor := none
  bold : Bool := false
  italic : Bool := false
deriving DecidableEq

/-- Ratatui `Span`: a text fragment with a style (`Span::styled`, `Span::raw`). -/
structure Span where
  content : String
  style : RStyle
deriving DecidableEq

/-- Ratatui `Line`: an ordered sequence of spans. -/
abbrev Line := List Span

/-- Ratatui `Text`: a slide is an ordered sequence of lines. -/
abbrev Slide := List Line

/-- `Line::from("")`: a line holding a single raw empty span, used by
`add_spacing` for vertical spacing. -/
def emptyLine : Line := [⟨"", {}⟩]

/-- A run of `n` space characters (`" ".repeat(n)`). -/
def spaces (n : Nat) : String := String.mk (List.replicate n ' ')

/-- A run of `n` box-drawing dashes (`"─".repeat(n)`). -/
def dashes (n : Nat) : String := String.mk (List.replicate n '─')

/-- Modelled from the spec: the display-width collaborator (the
`unicode-width` crate's per-character column width). Wide (CJK and related)
characters occupy two terminal columns, all others one. Simplified to the
principal wide ranges; only its values on concrete inputs are used. -/
def charWidth (c : Char) : Nat :=
  if (0x1100 ≤ c.toNat ∧ c.toNat ≤ 0x115F)
      ∨ (0x2E80 ≤ c.toNat ∧ c.toNat ≤ 0xA4CF)
      ∨ (0xAC00 ≤ c.toNat ∧ c.toNat ≤ 0xD7A3)
      ∨ (0xF900 ≤ c.toNat ∧ c.toNat ≤ 0xFAFF)
      ∨ (0xFE30 ≤ c.toNat ∧ c.toNat ≤ 0xFE4F)
      ∨ (0xFF00 ≤ c.toNat ∧ c.toNat ≤ 0xFF60)
      ∨ (0x20000 ≤ c.toNat ∧ c.toNat ≤ 0x3FFFD)
  then 2 else 1

/-- Modelled from the spec: `UnicodeWidthStr::width` — the rendered column
width of a string, the sum of its characters' widths. -/
def displayWidth (s : String) : Nat := (s.data.map charWidth).sum

/-- Rust `str::lines()`: split on `\n`, drop a final empty piece produced by a
trailing newline, and strip one trailing `\r` from each line. -/
def rustLines (s : String) : List String :=
  if s = "" then []
  else
    let parts := s.splitOn "\n"
    let parts := if s.endsWith "\n" then parts.dropLast else parts
    parts.map (fun l => if l.endsWith "\r" then l.dropRight 1 else l)

/-- `syntect::util::LinesWithEndings`: split into lines keeping the trailing
`\n` on every line except possibly the last. -/
def linesWithEndings (s : String) : List String :=
  if s = "" then []
  else
    let parts := s.splitOn "\n"
    let last := parts.getLastD ""
    let core := parts.dropLast.map (fun l => l ++ "\n")
    if last = "" then core else core ++ [last]

/-- The markdown token kinds consumed by `parse_markdown_to_slides`
(pulldown-cmark events, with heading levels as naturals 1–6 and the
code-block info string already reduced to an optional language tag). -/
inductive Event where
  | headingStart (level : Nat)
  | headingEnd (level : Nat)
  | text (s : String)
  | paragraphStart
  | paragraphEnd
  | listStart
  | itemStart
  | itemEnd
  | listEnd
  | strongStart
  | strongEnd
  | emphasisStart
  | emphasisEnd
  | code (s : String)
  | codeBlockStart (info : Option String)
  | codeBlockEnd
  | tableStart
  | tableEnd
  | tableHeadStart
  | tableHeadEnd
  | tableRowStart
  | tableRowEnd
  | tableCellStart
  | tableCellEnd
  | softBreak
  | hardBreak
  | other
deriving DecidableEq

/-- A styled range returned by the highlighting engine: foreground RGB plus
bold/italic font-style flags (`syntect::highlighting::Style`). -/
structure HighlightStyle where
  r : Nat
  g : Nat
  b : Nat
  bold : Bool
  italic : Bool
deriving DecidableEq

/-- The external syntect collaborators: grammar lookup by token and by
extension (`SyntaxSet::find_syntax_by_token` / `find_syntax_by_extension`,
grammars identified by a number), and per-line highlighting ranges for a
grammar applied to a code block's buffered content (`HighlightLines`). -/
structure SynEnv where
  findSyntaxByToken : String → Option Nat
  findSyntaxByExtension : String → Option Nat
  highlightLines : Nat → String → List (List (HighlightStyle × String))

/-- A syntax environment with no grammars at all, used to evaluate streams
that never reach the found-grammar path. -/
def env0 : SynEnv := ⟨fun _ => none, fun _ => none, fun _ _ => []⟩

/-- The alias table of `main.rs` lines 395–450: map a language name to a
file extension, falling back to the tag itself. -/
def aliasExt (lang : String) : String :=
  match lang with
  | "rust" | "rs" => "rs"
  | "python" | "py" => "py"
  | "javascript" | "js" => "js"
  | "typescript" | "ts" => "ts"
  | "java" => "java"
  | "c" => "c"
  | "cpp" | "c++" | "cxx" => "cpp"
  | "csharp" | "c#" | "cs" => "cs"
  | "go" | "golang" => "go"
  | "html" => "html"
  | "css" => "css"
  | "json" => "json"
  | "xml" => "xml"
  | "yaml" | "yml" => "yaml"
  | "toml" => "toml"
  | "markdown" | "md" => "md"
  | "dockerfile" | "docker" => "Dockerfile"
  | "sql" => "sql"
  | "shell" | "bash" | "sh" => "sh"
  | "php" => "php"
  | "ruby" | "rb" => "rb"
  | "perl" | "pl" => "pl"
  | "swift" => "swift"
  | "kotlin" | "kt" => "kt"
  | "scala" => "scala"
  | "haskell" | "hs" => "hs"
  | "elixir" | "ex" => "ex"
  | "erlang" | "erl" => "erl"
  | "clojure" | "clj" => "clj"
  | "lua" => "lua"
  | "r" => "r"
  | "matlab" => "m"
  | "powershell" | "ps1" => "ps1"
  | "vim" => "vim"
  | "tex" | "latex" => "tex"
  | "makefile" | "make" => "Makefile"
  | "nginx" => "conf"
  | "apache" => "conf"
  | "ini" => "ini"
  | "properties" => "properties"
  | "groovy" => "groovy"
  | "dart" => "dart"
  | "assembly" | "asm" => "asm"
  | "lisp" => "lisp"
  | "scheme" => "scm"
  | "ocaml" => "ml"
  | "fsharp" | "f#" => "fs"
  | "pascal" => "pas"
  | "fortran" => "f90"
  | "cobol" => "cob"
  | "ada" => "ada"
  | "verilog" => "v"
  | "vhdl" => "vhd"
  | _ => lang

/-- The mutable state of the `parse_markdown_to_slides` event loop
(`main.rs` lines 214–229), field names as in the source. -/
structure PState where
  slides : List Slide
  current_slide_lines : List Line
  current_line_spans : List Span
  in_heading : Bool
  heading_level : Nat
  in_strong : Bool
  in_emphasis : Bool
  in_code_block : Bool
  code_block_lang : Option String
  code_block_content : String
  in_table : Bool
  in_list : Bool
  table_rows : List (List String)
  current_table_row : List String
  current_cell_content : String
  in_table_header : Bool
deriving DecidableEq

/-- The initial loop state of `parse_markdown_to_slides`. -/
def initState : PState where
  slides := []
  current_slide_lines := []
  current_line_spans := []
  in_heading := false
  heading_level := 1
  in_strong := false
  in_emphasis := false
  in_code_block := false
  code_block_lang := none
  code_block_content := ""
  in_table := false
  in_list := false
  table_rows := []
  current_table_row := []
  current_cell_content := ""
  in_table_header := false

/-- The `push_current_line` closure (`main.rs` lines 233–254): if the span
buffer is non-empty, wrap it into a line — for an H1 line first prepending a
centering pad of `(terminal_width - text_width) / 2` spaces when positive,
where `text_width` is the total `chars().count()` of the spans — append it to
the line buffer, and clear the span buffer. -/
def push_current_line (terminal_width : Nat) (lines : List Line) (spans : List Span)
    (is_h1 : Bool) : List Line × List Span :=
  if spans = [] then (lines, spans)
  else
    let line :=
      if is_h1 then
        let text_width := (spans.map (fun sp => sp.content.length)).sum
        let padding := if terminal_width > text_width then (terminal_width - text_width) / 2 else 0
        if padding > 0 then ⟨spaces padding, {}⟩ :: spans else spans
      else spans
    (lines ++ [line], [])

/-- The `add_spacing` closure (`main.rs` lines 256–260): push one empty line
when the line buffer is non-empty. -/
def add_spacing (lines : List Line) : List Line :=
  if lines = [] then lines else lines ++ [emptyLine]

/-- The `finish_slide` closure (`main.rs` lines 262–266): if the line buffer
is non-empty, freeze it as a slide and clear it. -/
def finish_slide (slides : List Slide) (lines : List Line) : List Slide × List Line :=
  if lines = [] then (slides, lines) else (slides ++ [lines], [])

/-- The heading style table of `main.rs` lines 300–313. -/
def headingStyle (level : Nat) : RStyle :=
  match level with
  | 1 => { fg := some .cyan, bold := true }
  | 2 => { fg := some .blue, bold := true }
  | 3 => { fg := some .green, bold := true }
  | _ => { fg := some .yellow, bold := true }

/-- Translate one highlighter range to a span (`main.rs` lines 470–493):
foreground from the returned RGB, bold/italic from the font-style flags. -/
def toSpan (p : HighlightStyle × String) : Span :=
  ⟨p.2, { fg := some (.rgb p.1.r p.1.g p.1.b), bold := p.1.bold, italic := p.1.italic }⟩

/-- Emission for a found grammar (`main.rs` lines 454–498): one line per
source line (with endings); a line whose ranges are empty is preserved
verbatim as a single fallback-colored run. -/
def highlightEmit (ranges : List (List (HighlightStyle × String))) (content : String) :
    List Line :=
  (linesWithEndings content).enum.map (fun p =>
    let r := ranges.getD p.1 []
    if r = [] then [⟨p.2, { fg := some .green }⟩] else r.map toSpan)

/-- Fallback emission when no grammar is found or the block has no language
tag (`main.rs` lines 499–515): each raw line becomes a single green run. -/
def fallbackEmit (content : String) : List Line :=
  (rustLines content).map (fun l => [⟨l, { fg := some .green }⟩])

/-- `num_cols` (`main.rs` line 530): maximum cell count across all rows. -/
def numCols (rows : List (List String)) : Nat :=
  rows.foldl (fun m r => max m r.length) 0

/-- One pass of the column-width loop body (`main.rs` lines 533–539): for each
cell present at index `i`, raise `col_widths[i]` to at least the cell's
display width; cells beyond the width table are ignored. -/
def updateRowWidths : List Nat → List String → List Nat
  | ws, [] => ws
  | [], _ :: _ => []
  | w :: ws, c :: cs => max w (displayWidth c) :: updateRowWidths ws cs

/-- `col_widths` (`main.rs` lines 531–539): start from zeros and fold the rows. -/
def computeColWidths (rows : List (List String)) : List Nat :=
  rows.foldl updateRowWidths (List.replicate (numCols rows) 0)

/-- A gray-styled span, the style of every table border piece. -/
def grayS (s : String) : Span := ⟨s, { fg := some .gray }⟩

/-- The middle of a border line (`main.rs` lines 544–549 and analogues): per
column a run of `width + 2` dashes, separated by the junction character. -/
def borderMids (m : String) : List Nat → List Span
  | [] => []
  | [w] => [grayS (dashes (w + 2))]
  | w :: ws => grayS (dashes (w + 2)) :: grayS m :: borderMids m ws

/-- A full border line: left corner, dash runs with junctions, right corner. -/
def borderLine (l m r : String) (ws : List Nat) : Line :=
  grayS l :: (borderMids m ws ++ [grayS r])

/-- One rendered data row (`main.rs` lines 555–566): a leading `"│ "`, then
per cell the text right-padded with spaces to the column width (default 10
when the row is longer than the width table) followed by `" │ "`. -/
def rowLine (ws : List Nat) (row : List String) : Line :=
  grayS "│ " ::
    (row.enum.map (fun p =>
      let width := ws.getD p.1 10
      let padded := p.2 ++ spaces (width - displayWidth p.2)
      [(⟨padded, { fg := some .white }⟩ : Span), grayS " │ "])).flatten

/-- Data rows interleaved with separator lines (`main.rs` lines 554–583): a
`├/┼/┤` separator between every pair of consecutive rows, none after the last. -/
def rowsWithSeps (ws : List Nat) : List (List String) → List Line
  | [] => []
  | [row] => [rowLine ws row]
  | row :: rest => rowLine ws row :: borderLine "├" "┼" "┤" ws :: rowsWithSeps ws rest

/-- The table rendering of the `TagEnd::Table` arm for a non-empty row list
(`main.rs` lines 528–595): top border, data rows with separators, bottom
border. -/
def renderTable (rows : List (List String)) : List Line :=
  let ws := computeColWidths rows
  borderLine "┌" "┬" "┐" ws :: (rowsWithSeps ws rows ++ [borderLine "└" "┴" "┘" ws])

/-- One iteration of the event dispatch loop of `parse_markdown_to_slides`
(`main.rs` lines 268–629), one match arm per token kind. -/
def step (env : SynEnv) (terminal_width : Nat) (s : PState) (e : Event) : PState :=
  match e with
  | .headingStart level =>
    let p := push_current_line terminal_width s.current_slide_lines s.current_line_spans false
    if level = 1 then
      let q := finish_slide s.slides p.1
      { s with slides := q.1, current_slide_lines := q.2, current_line_spans := p.2,
               in_heading := true, heading_level := 1 }
    else
      { s with current_slide_lines := p.1, current_line_spans := p.2,
               in_heading := true, heading_level := level }
  | .headingEnd _ =>
    let p := push_current_line terminal_width s.current_slide_lines s.current_line_spans
      (s.heading_level = 1)
    { s with current_slide_lines := add_spacing p.1, current_line_spans := p.2,
             in_heading := false }
  | .text t =>
    if s.in_code_block then
      { s with code_block_content := s.code_block_content ++ t }
    else if s.in_table then
      { s with current_cell_content := s.current_cell_content ++ t }
    else
      let style :=
        if s.in_heading then headingStyle s.heading_level
        else if s.in_strong then { fg := some .white, bold := true }
        else if s.in_emphasis then { fg := some .white, italic := true }
        else ({ fg := some .white } : RStyle)
      { s with current_line_spans := s.current_line_spans ++ [⟨t, style⟩] }
  | .paragraphStart =>
    if s.in_table then s
    else
      let p := push_current_line terminal_width s.current_slide_lines s.current_line_spans false
      { s with current_slide_lines := p.1, current_line_spans := p.2 }
  | .paragraphEnd =>
    if s.in_table then s
    else
      let p := push_current_line terminal_width s.current_slide_lines s.current_line_spans false
      { s with current_slide_lines := add_spacing p.1, current_line_spans := p.2 }
  | .listStart =>
    let p := push_current_line terminal_width s.current_slide_lines s.current_line_spans false
    { s with current_slide_lines := p.1, current_line_spans := p.2, in_list := true }
  | .itemStart =>
    { s with current_line_spans :=
        s.current_line_spans ++ [⟨"• ", { fg := some .yellow }⟩] }
  | .itemEnd =>
    let p := push_current_line terminal_width s.current_slide_lines s.current_line_spans false
    { s with current_slide_lines := p.1, current_line_spans := p.2 }
  | .listEnd =>
    if s.in_list then
      { s with current_slide_lines := add_spacing s.current_slide_lines, in_list := false }
    else s
  | .strongStart => { s with in_strong := true }
  | .strongEnd => { s with in_strong := false }
  | .emphasisStart => { s with in_emphasis := true }
  | .emphasisEnd => { s with in_emphasis := false }
  | .code c =>
    if s.in_table then
      { s with current_cell_content := s.current_cell_content ++ "`" ++ c ++ "`" }
    else
      { s with current_line_spans := s.current_line_spans ++
          [⟨"`" ++ c ++ "`", { fg := some .green, bg := some (.rgb 40 40 40) }⟩] }
  | .codeBlockStart info =>
    let p := push_current_line terminal_width s.current_slide_lines s.current_line_spans false
    { s with current_slide_lines := p.1, current_line_spans := p.2, in_code_block := true,
             code_block_lang :=
               match info with
               | none => none
               | some lang => if lang = "" then none else some lang,
             code_block_content := "" }
  | .codeBlockEnd =>
    let emitted : List Line :=
      match s.code_block_lang with
      | some lang =>
        let syn :=
          match env.findSyntaxByToken lang with
          | some g => some g
          | none => env.findSyntaxByExtension (aliasExt lang)
        match syn with
        | some g => highlightEmit (env.highlightLines g s.code_block_content) s.code_block_content
        | none => fallbackEmit s.code_block_content
      | none => fallbackEmit s.code_block_content
    { s with in_code_block := false,
             current_slide_lines := add_spacing (s.current_slide_lines ++ emitted),
             code_block_content := "", code_block_lang := none }
  | .tableStart =>
    let p := push_current_line terminal_width s.current_slide_lines s.current_line_spans false
    { s with current_slide_lines := p.1, current_line_spans := p.2, in_table := true,
             table_rows := [] }
  | .tableEnd =>
    let lines :=
      if s.table_rows ≠ [] then s.current_slide_lines ++ renderTable s.table_rows
      else s.current_slide_lines
    { s with current_slide_lines := add_spacing lines, in_table := false,
             in_table_header := false }
  | .tableHeadStart => { s with in_table_header := true }
  | .tableHeadEnd => { s with in_table_header := false }
  | .tableRowStart => { s with current_table_row := [] }
  | .tableRowEnd =>
    { s with table_rows := s.table_rows ++ [s.current_table_row], current_table_row := [] }
  | .tableCellStart => { s with current_cell_content := "" }
  | .tableCellEnd =>
    { s with current_table_row := s.current_table_row ++ [s.current_cell_content.trim],
             current_cell_content := "" }
  | .softBreak | .hardBreak =>
    if s.in_table then s
    else
      let p := push_current_line terminal_width s.current_slide_lines s.current_line_spans false
      { s with current_slide_lines := p.1, current_line_spans := p.2 }
  | .other => s

/-- `parse_markdown_to_slides` (`main.rs` lines 205–639) over a token stream:
fold the dispatch loop, flush the pending line and slide, and synthesize the
placeholder slide when no slide was produced. -/
def parse_markdown_to_slides (env : SynEnv) (terminal_width : Nat)
    (events : List Event) : List Slide :=
  let s := events.foldl (step env terminal_width) initState
  let p := push_current_line terminal_width s.current_slide_lines s.current_line_spans false
  let q := finish_slide s.slides p.1
  if q.1 = [] then [[[⟨"No slides found in markdown file", {}⟩]]] else q.1

/-- The navigable application state (`struct App`, `main.rs` lines 73–84);
the theme and syntax sets are carried by the environment instead. -/
structure App where
  slides : List Slide
  current_slide : Nat
  scroll_offset : Nat
deriving DecidableEq

/-- `App::new` (`main.rs` lines 96–107): parse the document and start at the
first slide with no scroll. -/
def App.new (env : SynEnv) (events : List Event) (terminal_width : Nat) : App :=
  ⟨parse_markdown_to_slides env terminal_width events, 0, 0⟩

/-- `App::next_slide` (`main.rs` lines 112–117). -/
def App.next_slide (a : App) : App :=
  if a.slides ≠ [] ∧ a.current_slide < a.slides.length - 1 then
    { a with current_slide := a.current_slide + 1, scroll_offset := 0 }
  else a

/-- `App::prev_slide` (`main.rs` lines 122–127). -/
def App.prev_slide (a : App) : App :=
  if 0 < a.current_slide then
    { a with current_slide := a.current_slide - 1, scroll_offset := 0 }
  else a

/-- `App::scroll_down` (`main.rs` lines 132–139); out-of-range slide indexing
is modelled with a default empty slide. -/
def App.scroll_down (a : App) : App :=
  if a.slides ≠ [] then
    let max_scroll := (a.slides.getD a.current_slide []).length - 1
    if a.scroll_offset < max_scroll then { a with scroll_offset := a.scroll_offset + 1 }
    else a
  else a

/-- `App::scroll_up` (`main.rs` lines 144–148). -/
def App.scroll_up (a : App) : App :=
  if 0 < a.scroll_offset then { a with scroll_offset := a.scroll_offset - 1 } else a

/-- The deck cursor invariant of the spec: the current slide index is in
range, the deck is non-empty, and the scroll offset stays within the current
slide's line count. -/
abbrev AppInv (a : App) : Prop :=
  a.current_slide < a.slides.length ∧ a.slides ≠ [] ∧
    a.scroll_offset ≤ max 0 ((a.slides.getD a.current_slide []).length - 1)

/-- The language tag (or its absence) resolves to no highlighting grammar:
neither the token lookup nor the extension lookup through the alias table
succeeds. -/
def noGrammar (env : SynEnv) : Option String → Prop
  | none => True
  | some lang =>
      env.findSyntaxByToken lang = none ∧
        env.findSyntaxByExtension (aliasExt lang) = none

/-- The deck builder never returns an empty deck: a placeholder slide is
synthesized when the source produces no slide. -/
theorem parse_markdown_to_slides_ne_nil (env : SynEnv) (terminal_width : Nat)
    (events : List Event) :
    parse_markdown_to_slides env terminal_width events ≠ [] := by
  have h : ∀ (l : List Slide),
      (if l = [] then [[[⟨"No slides found in markdown file", {}⟩]]] else l) ≠ [] := by
    intro l
    split <;> simp_all
  exact h _

/-- C5: an empty (or whitespace-only, hence token-free) markdown document
produces exactly one slide holding the single literal line
"No slides found in markdown file". -/
theorem c5_empty_document_placeholder (env : SynEnv) (terminal_width : Nat) :
    parse_markdown_to_slides env terminal_width [] =
      [[[⟨"No slides found in markdown file", {}⟩]]] := rfl

/-- C6: `prev_slide` at slide 0, `next_slide` at the last slide,
`scroll_down` when the scroll offset is at or beyond (line count − 1) of the
current slide, and `scroll_up` at offset 0 each leave the app state entirely
unchanged. -/
theorem c6_navigation_noops (a : App) :
    (a.current_slide = 0 → a.prev_slide = a) ∧
    (a.slides ≠ [] → a.current_slide = a.slides.length - 1 → a.next_slide = a) ∧
    ((a.slides.getD a.current_slide []).length - 1 ≤ a.scroll_offset →
      a.scroll_down = a) ∧
    (a.scroll_offset = 0 → a.scroll_up = a) := by
  refine ⟨?_, ?_, ?_, ?_⟩
  · intro h
    simp [App.prev_slide, h]
  · intro hne h
    unfold App.next_slide
    split_ifs with hc
    · exact absurd hc.2 (by omega)
    · rfl
  · intro h
    simp only [App.scroll_down]
    split_ifs with h1 h2
    · exact absurd h2 (by omega)
    · rfl
    · rfl
  · intro h
    simp [App.scroll_up, h]

/-- Witness for C6 at a concrete one-slide app. -/
theorem c6_navigation_noops_witness :
    ((⟨[[[⟨"x", {}⟩]]], 0, 0⟩ : App).current_slide = 0 ∧
      App.prev_slide ⟨[[[⟨"x", {}⟩]]], 0, 0⟩ = ⟨[[[⟨"x", {}⟩]]], 0, 0⟩) ∧
    (App.next_slide ⟨[[[⟨"x", {}⟩]]], 0, 0⟩ = ⟨[[[⟨"x", {}⟩]]], 0, 0⟩) ∧
    (App.scroll_down ⟨[[[⟨"x", {}⟩]]], 0, 0⟩ = ⟨[[[⟨"x", {}⟩]]], 0, 0⟩) ∧
    (App.scroll_up ⟨[[[⟨"x", {}⟩]]], 0, 0⟩ = ⟨[[[⟨"x", {}⟩]]], 0, 0⟩) :=
  ⟨⟨by decide, (c6_navigation_noops _).1 (by decide)⟩,
    (c6_navigation_noops _).2.1 (by decide) (by decide),
    (c6_navigation_noops _).2.2.1 (by decide),
    (c6_navigation_noops _).2.2.2 (by decide)⟩

/-- C7: the deck invariant (index in range, at least one slide, scroll
bounded by the current slide's line count) holds in the initial state built
from any input and is preserved by all four navigation operations. -/
theorem c7_deck_invariant :
    (∀ (env : SynEnv) (events : List Event) (terminal_width : Nat),
        AppInv (App.new env events terminal_width)) ∧
    (∀ a : App, AppInv a →
        AppInv a.next_slide ∧ AppInv a.prev_slide ∧
          AppInv a.scroll_down ∧ AppInv a.scroll_up) := by
  constructor
  · intro env events terminal_width
    have h := parse_markdown_to_slides_ne_nil env terminal_width events
    refine ⟨?_, h, Nat.zero_le _⟩
    exact List.length_pos.mpr h
  · rintro a ⟨h1, h2, h3⟩
    rw [Nat.zero_max] at h3
    refine ⟨?_, ?_, ?_, ?_⟩
    · unfold App.next_slide
      split_ifs with hc
      · refine ⟨?_, ?_, ?_⟩
        · show a.current_slide + 1 < a.slides.length
          omega
        · show a.slides ≠ []
          exact h2
        · show (0 : Nat) ≤ max 0 ((a.slides.getD (a.current_slide + 1) []).length - 1)
          exact Nat.zero_le _
      · exact ⟨h1, h2, by rw [Nat.zero_max]; exact h3⟩
    · unfold App.prev_slide
      split_ifs with hc
      · refine ⟨?_, ?_, ?_⟩
        · show a.current_slide - 1 < a.slides.length
          omega
        · show a.slides ≠ []
          exact h2
        · show (0 : Nat) ≤ max 0 ((a.slides.getD (a.current_slide - 1) []).length - 1)
          exact Nat.zero_le _
      · exact ⟨h1, h2, by rw [Nat.zero_max]; exact h3⟩
    · simp only [App.scroll_down]
      split_ifs with hc1
      · refine ⟨?_, ?_, ?_⟩
        · show a.current_slide < a.slides.length
          exact h1
        · show a.slides ≠ []
          exact h2
        · show a.scroll_offset + 1 ≤ max 0 ((a.slides.getD a.current_slide []).length - 1)
          rw [Nat.zero_max]
          omega
      · exact ⟨h1, h2, by rw [Nat.zero_max]; exact h3⟩
    · unfold App.scroll_up
      split_ifs with hc
      · refine ⟨?_, ?_, ?_⟩
        · show a.current_slide < a.slides.length
          exact h1
        · show a.slides ≠ []
          exact h2
        · show a.scroll_offset - 1 ≤ max 0 ((a.slides.getD a.current_slide []).length - 1)
          rw [Nat.zero_max]
          omega
      · exact ⟨h1, h2, by rw [Nat.zero_max]; exact h3⟩

/-- Witness for C7 at the concrete initial app built from the empty stream. -/
theorem c7_deck_invariant_witness :
    AppInv (App.new env0 [] 80) ∧ AppInv (App.new env0 [] 80).next_slide :=
  ⟨by decide, (c7_deck_invariant.2 (App.new env0 [] 80) (by decide)).1⟩

/-- C10: whenever `next_slide` or `prev_slide` actually changes the current
slide index, the scroll offset is reset to 0. -/
theorem c10_slide_change_resets_scroll (a : App) :
    (a.next_slide.current_slide ≠ a.current_slide → a.next_slide.scroll_offset = 0) ∧
    (a.prev_slide.current_slide ≠ a.current_slide → a.prev_slide.scroll_offset = 0) := by
  constructor
  · intro h
    unfold App.next_slide at h ⊢
    split_ifs at h ⊢ with hc
    · rfl
    · exact absurd rfl h
  · intro h
    unfold App.prev_slide at h ⊢
    split_ifs at h ⊢ with hc
    · rfl
    · exact absurd rfl h

/-- Witness for C10 at a two-slide app with a non-zero scroll offset. -/
theorem c10_slide_change_resets_scroll_witness :
    (App.next_slide ⟨[[[⟨"x", {}⟩]], [[⟨"y", {}⟩]]], 0, 5⟩).current_slide ≠
      (⟨[[[⟨"x", {}⟩]], [[⟨"y", {}⟩]]], 0, 5⟩ : App).current_slide ∧
    (App.next_slide ⟨[[[⟨"x", {}⟩]], [[⟨"y", {}⟩]]], 0, 5⟩).scroll_offset = 0 :=
  ⟨by decide, (c10_slide_change_resets_scroll _).1 (by decide)⟩

/-- Counterexample for C1 as stated: with both the strong and the emphasis
flag set when a text token arrives outside headings, code blocks and tables,
the emitted run carries the bold modifier but NOT the italic modifier — the
`else if` chain makes strong override emphasis instead of stacking. -/
theorem c1_both_modifiers_cex :
    (([Event.strongStart, .emphasisStart].foldl (step env0 80) initState).in_strong = true) ∧
    (([Event.strongStart, .emphasisStart].foldl (step env0 80) initState).in_emphasis = true) ∧
    ((((parse_markdown_to_slides env0 80
        [.strongStart, .emphasisStart, .text "x"]).getD 0 []).getD 0 []).getD 0
        ⟨"", {}⟩).style.bold = true ∧
    ¬ ((((parse_markdown_to_slides env0 80
        [.strongStart, .emphasisStart, .text "x"]).getD 0 []).getD 0 []).getD 0
        ⟨"", {}⟩).style.italic = true := by decide

/-- C1 amended: for text arriving outside a heading, a code block and a
table with the in-strong flag set, the emitted run is white with bold only —
even when the in-emphasis flag is also set, the italic modifier is not
applied (strong takes precedence; the two contexts do not stack). -/
theorem c1_strong_overrides_emphasis (env : SynEnv) (terminal_width : Nat)
    (s : PState) (t : String)
    (hcb : s.in_code_block = false) (htab : s.in_table = false)
    (hh : s.in_heading = false) (hst : s.in_strong = true)
    (_hem : s.in_emphasis = true) :
    (step env terminal_width s (.text t)).current_line_spans =
      s.current_line_spans ++ [⟨t, { fg := some .white, bold := true }⟩] := by
  simp [step, hcb, htab, hh, hst]

/-- A concrete parser state with both the strong and the emphasis flag set. -/
def c1state : PState :=
  { initState with in_strong := true, in_emphasis := true }

/-- Witness for the amended C1 at a concrete state with both flags set. -/
theorem c1_strong_overrides_emphasis_witness :
    c1state.in_strong = true ∧ c1state.in_emphasis = true ∧
    (step env0 80 c1state (.text "x")).current_line_spans =
      c1state.current_line_spans ++ [⟨"x", { fg := some .white, bold := true }⟩] :=
  ⟨rfl, rfl,
    c1_strong_overrides_emphasis env0 80 c1state "x" rfl rfl rfl rfl rfl⟩

/-- Counterexample for C2 as stated: the code centers an H1 heading by its
raw character count, not its display-column width. The heading "你好" has
display width 4 (two wide characters) but character count 2; at target width
10 the code prepends 4 spaces while the claimed pad floor((10 − 4)/2) is 3. -/
theorem c2_display_width_cex :
    displayWidth "你好" = 4 ∧
    displayWidth "你好" < 10 ∧
    parse_markdown_to_slides env0 10 [.headingStart 1, .text "你好", .headingEnd 1] =
      [[[⟨spaces 4, {}⟩, ⟨"你好", { fg := some .cyan, bold := true }⟩], emptyLine]] ∧
    ¬ (spaces 4).length = (10 - displayWidth "你好") / 2 := by decide

/-- C2 amended: the committed H1 line is padded by raw character count: with
`C` the total character count of the line's runs, a single run of
`(W − C) / 2` spaces is prepended when `C < W` and that quotient is
positive; otherwise (including `C < W` with quotient 0) no pad run is added. -/
theorem c2_h1_centering_char_count (terminal_width : Nat) (lines : List Line)
    (spans : List Span) (hs : spans ≠ []) :
    ((spans.map (fun sp => sp.content.length)).sum < terminal_width →
      0 < (terminal_width - (spans.map (fun sp => sp.content.length)).sum) / 2 →
      (push_current_line terminal_width lines spans true).1 =
        lines ++ [⟨spaces ((terminal_width -
          (spans.map (fun sp => sp.content.length)).sum) / 2), {}⟩ :: spans]) ∧
    ((spans.map (fun sp => sp.content.length)).sum < terminal_width →
      (terminal_width - (spans.map (fun sp => sp.content.length)).sum) / 2 = 0 →
      (push_current_line terminal_width lines spans true).1 = lines ++ [spans]) ∧
    (terminal_width ≤ (spans.map (fun sp => sp.content.length)).sum →
      (push_current_line terminal_width lines spans true).1 = lines ++ [spans]) := by
  refine ⟨?_, ?_, ?_⟩
  · intro h1 h2
    simp [push_current_line, hs, h1, h2]
  · intro h1 h2
    simp [push_current_line, hs, h1, h2]
  · intro h1
    simp [push_current_line, hs, Nat.not_lt.mpr h1]

/-- Witness for the amended C2: four ASCII characters at width 10 give a pad
of exactly 3 spaces. -/
theorem c2_h1_centering_char_count_witness :
    (([(⟨"abcd", {}⟩ : Span)].map (fun sp => sp.content.length)).sum < 10) ∧
    (0 < (10 - ([(⟨"abcd", {}⟩ : Span)].map (fun sp => sp.content.length)).sum) / 2) ∧
    (push_current_line 10 [] [⟨"abcd", {}⟩] true).1 =
      [] ++ [⟨spaces ((10 - ([(⟨"abcd", {}⟩ : Span)].map
        (fun sp => sp.content.length)).sum) / 2), {}⟩ :: [⟨"abcd", {}⟩]] :=
  ⟨by decide, by decide,
    (c2_h1_centering_char_count 10 [] [⟨"abcd", {}⟩] (by decide)).1
      (by decide) (by decide)⟩

/-- Counterexample for C3 as stated: a table end arriving with zero
accumulated rows does NOT leave the line buffer untouched — the spacing step
runs unconditionally, so when the buffer is non-empty an empty spacing line
is appended (here the buffer grows from 2 to 3 lines). -/
theorem c3_empty_table_cex :
    (([Event.paragraphStart, .text "x", .paragraphEnd, .tableStart].foldl
        (step env0 80) initState).table_rows = []) ∧
    (([Event.paragraphStart, .text "x", .paragraphEnd, .tableStart].foldl
        (step env0 80) initState).current_slide_lines.length = 2) ∧
    ((step env0 80 ([Event.paragraphStart, .text "x", .paragraphEnd, .tableStart].foldl
        (step env0 80) initState) .tableEnd).current_slide_lines.length = 3) ∧
    ¬ (step env0 80 ([Event.paragraphStart, .text "x", .paragraphEnd, .tableStart].foldl
        (step env0 80) initState) .tableEnd).current_slide_lines =
      ([Event.paragraphStart, .text "x", .paragraphEnd, .tableStart].foldl
        (step env0 80) initState).current_slide_lines := by decide

/-- C3 amended: a table end with zero accumulated rows emits no border lines
(the slide buffer receives no table content), but the unconditional spacing
step appends one empty line whenever the buffer is non-empty; the slides list
is unchanged. -/
theorem c3_empty_table_no_borders (env : SynEnv) (terminal_width : Nat)
    (s : PState) (h : s.table_rows = []) :
    (step env terminal_width s .tableEnd).slides = s.slides ∧
    (step env terminal_width s .tableEnd).current_slide_lines =
      (if s.current_slide_lines = [] then s.current_slide_lines
       else s.current_slide_lines ++ [emptyLine]) := by
  simp [step, h, add_spacing]

/-- A concrete parser state inside a table with an empty row list and one
already-buffered line. -/
def c3state : PState :=
  { initState with
      in_table := true,
      current_slide_lines := [[⟨"x", {}⟩]] }

/-- Witness for the amended C3 at a concrete state with one buffered line. -/
theorem c3_empty_table_no_borders_witness :
    c3state.table_rows = [] ∧
    (step env0 80 c3state .tableEnd).current_slide_lines =
      (if c3state.current_slide_lines = [] then c3state.current_slide_lines
       else c3state.current_slide_lines ++ [emptyLine]) :=
  ⟨rfl, (c3_empty_table_no_borders env0 80 c3state rfl).2⟩

/-- C9: when the code block's language tag resolves to no grammar (absent
tag, or token and aliased-extension lookup both failing, e.g. "zzz"), the
block end emits each raw source line as exactly one run in the fallback code
color (green), the emitted code line count equals the input line count, and
the handler is a total function — slide construction never aborts. -/
theorem c9_no_grammar_fallback (env : SynEnv) (terminal_width : Nat) (s : PState)
    (h : noGrammar env s.code_block_lang) :
    (step env terminal_width s .codeBlockEnd).current_slide_lines =
      add_spacing (s.current_slide_lines ++
        (rustLines s.code_block_content).map (fun l => [⟨l, { fg := some .green }⟩])) ∧
    (step env terminal_width s .codeBlockEnd).in_code_block = false ∧
    ((rustLines s.code_block_content).map
        (fun l => ([⟨l, { fg := some .green }⟩] : Line))).length =
      (rustLines s.code_block_content).length := by
  rcases hl : s.code_block_lang with _ | lang
  · refine ⟨?_, ?_, ?_⟩
    · simp [step, hl, fallbackEmit]
    · simp [step, hl]
    · simp
  · rw [hl] at h
    obtain ⟨h1, h2⟩ := h
    refine ⟨?_, ?_, ?_⟩
    · simp [step, hl, h1, h2, fallbackEmit]
    · simp [step, hl]
    · simp

/-- A concrete parser state at the end of a code block tagged "zzz" with two
buffered source lines. -/
def c9state : PState :=
  { initState with
      in_code_block := true,
      code_block_lang := some "zzz",
      code_block_content := "x=1\ny=2\n" }

/-- Is this event the start of a top-level (H1) heading? -/
def isH1Start : Event → Bool
  | .headingStart level => level == 1
  | _ => false

/-- The number of top-level heading start tokens in a stream. -/
def countH1 (events : List Event) : Nat := (events.filter isH1Start).length

/-- The effect of one event on the (in-code-block, in-table) flag pair. -/
def flagStep (p : Bool × Bool) (e : Event) : Bool × Bool :=
  match e with
  | .codeBlockStart _ => (true, p.2)
  | .codeBlockEnd => (false, p.2)
  | .tableStart => (p.1, true)
  | .tableEnd => (p.1, false)
  | _ => p

/-- Is this event an inline token as produced inside a heading: text, inline
code, a strong/emphasis delimiter, or an ignored token? -/
def isInline : Event → Bool
  | .text _ => true
  | .code _ => true
  | .strongStart => true
  | .strongEnd => true
  | .emphasisStart => true
  | .emphasisEnd => true
  | .other => true
  | _ => false

/-- Does this event contribute a run to the pending span buffer (outside code
blocks and tables)? Text and inline code do; style delimiters do not. -/
def producesSpan : Event → Bool
  | .text _ => true
  | .code _ => true
  | _ => false

/-- The token run of one slide: an H1 heading whose interior is a run of
inline events, followed by arbitrary body events. -/
def segEvents (p : List Event × List Event) : List Event :=
  .headingStart 1 :: (p.1 ++ (.headingEnd 1 :: p.2))

/-- A document shaped as a sequence of heading-led slides. -/
def docEvents : List (List Event × List Event) → List Event
  | [] => []
  | p :: rest => segEvents p ++ docEvents rest

/-- A well-formed slide segment: the heading interior consists of inline
events, at least one of which produces a run (a text or inline-code token, so
the heading commits a line), and the body contains no H1 start and leaves the
code-block and table flags balanced — as the tokenizer guarantees for the
token run between consecutive H1 headings. -/
abbrev SegOK (p : List Event × List Event) : Prop :=
  (∀ e ∈ p.1, isInline e = true) ∧ (∃ e ∈ p.1, producesSpan e = true) ∧
    (∀ e ∈ p.2, isH1Start e = false) ∧
    p.2.foldl flagStep (false, false) = (false, false)

/-- Flushing the pending spans only ever appends to the line buffer. -/
theorem push_current_line_suffix (terminal_width : Nat) (lines : List Line)
    (spans : List Span) (is_h1 : Bool) :
    ∃ t, (push_current_line terminal_width lines spans is_h1).1 = lines ++ t := by
  unfold push_current_line
  split
  · exact ⟨[], by simp⟩
  · exact ⟨_, rfl⟩

/-- Spacing only ever appends to the line buffer. -/
theorem add_spacing_suffix (lines : List Line) :
    ∃ t, add_spacing lines = lines ++ t := by
  unfold add_spacing
  split
  · exact ⟨[], by simp⟩
  · exact ⟨[emptyLine], rfl⟩

/-- Chaining two append-only transformations is append-only. -/
theorem append_suffix_trans {α : Type} {a b c : List α}
    (h1 : ∃ t, b = a ++ t) (h2 : ∃ u, c = b ++ u) : ∃ v, c = a ++ v := by
  obtain ⟨t, ht⟩ := h1
  obtain ⟨u, hu⟩ := h2
  exact ⟨t ++ u, by rw [hu, ht, List.append_assoc]⟩

/-- Flushing a non-empty span buffer yields a non-empty line buffer. -/
theorem push_current_line_ne_nil (terminal_width : Nat) (lines : List Line)
    (spans : List Span) (is_h1 : Bool) (h : spans ≠ []) :
    (push_current_line terminal_width lines spans is_h1).1 ≠ [] := by
  unfold push_current_line
  split_ifs <;> simp_all

/-- Flushing preserves non-emptiness of the line buffer. -/
theorem push_preserves_ne (terminal_width : Nat) (lines : List Line)
    (spans : List Span) (is_h1 : Bool) (h : lines ≠ []) :
    (push_current_line terminal_width lines spans is_h1).1 ≠ [] := by
  unfold push_current_line
  split_ifs <;> simp_all

/-- Spacing preserves non-emptiness of the line buffer. -/
theorem add_spacing_ne_nil (lines : List Line) (h : lines ≠ []) :
    add_spacing lines ≠ [] := by
  unfold add_spacing
  split_ifs <;> simp_all

/-- One dispatch step changes the code-block and table flags exactly as the
flag automaton prescribes. -/
theorem step_flags (env : SynEnv) (terminal_width : Nat) (s : PState) (e : Event) :
    ((step env terminal_width s e).in_code_block, (step env terminal_width s e).in_table) =
      flagStep (s.in_code_block, s.in_table) e := by
  cases e <;> simp [step, flagStep] <;> split_ifs <;> exact ⟨rfl, rfl⟩

/-- Only an H1 heading start can commit a slide: every other event leaves the
slides list unchanged. -/
theorem step_slides (env : SynEnv) (terminal_width : Nat) (s : PState) (e : Event)
    (h : isH1Start e = false) :
    (step env terminal_width s e).slides = s.slides := by
  cases e <;> simp_all [step, isH1Start] <;> split_ifs <;> rfl

/-- Every event other than an H1 heading start only ever appends to the line
buffer. -/
theorem step_lines_suffix (env : SynEnv) (terminal_width : Nat) (s : PState) (e : Event)
    (h : isH1Start e = false) :
    ∃ t, (step env terminal_width s e).current_slide_lines =
      s.current_slide_lines ++ t := by
  cases e with
  | headingStart level =>
    have hl : ¬ level = 1 := by simpa [isH1Start] using h
    simp only [step, hl, if_false]
    exact push_current_line_suffix _ _ _ _
  | headingEnd lv =>
    simp only [step]
    exact append_suffix_trans (push_current_line_suffix _ _ _ _) (add_spacing_suffix _)
  | text t =>
    simp only [step]
    split_ifs <;> exact ⟨[], by simp⟩
  | paragraphStart =>
    simp only [step]
    split_ifs
    · exact ⟨[], by simp⟩
    · exact push_current_line_suffix _ _ _ _
  | paragraphEnd =>
    simp only [step]
    split_ifs
    · exact ⟨[], by simp⟩
    · exact append_suffix_trans (push_current_line_suffix _ _ _ _) (add_spacing_suffix _)
  | listStart =>
    simp only [step]
    exact push_current_line_suffix _ _ _ _
  | itemStart => exact ⟨[], by simp [step]⟩
  | itemEnd =>
    simp only [step]
    exact push_current_line_suffix _ _ _ _
  | listEnd =>
    simp only [step]
    split_ifs
    · exact add_spacing_suffix _
    · exact ⟨[], by simp⟩
  | strongStart => exact ⟨[], by simp [step]⟩
  | strongEnd => exact ⟨[], by simp [step]⟩
  | emphasisStart => exact ⟨[], by simp [step]⟩
  | emphasisEnd => exact ⟨[], by simp [step]⟩
  | code c =>
    simp only [step]
    split_ifs <;> exact ⟨[], by simp⟩
  | codeBlockStart info =>
    simp only [step]
    exact push_current_line_suffix _ _ _ _
  | codeBlockEnd =>
    simp only [step]
    exact append_suffix_trans ⟨_, rfl⟩ (add_spacing_suffix _)
  | tableStart =>
    simp only [step]
    exact push_current_line_suffix _ _ _ _
  | tableEnd =>
    simp only [step]
    split_ifs
    · exact append_suffix_trans ⟨_, rfl⟩ (add_spacing_suffix _)
    · exact add_spacing_suffix _
  | tableHeadStart => exact ⟨[], by simp [step]⟩
  | tableHeadEnd => exact ⟨[], by simp [step]⟩
  | tableRowStart => exact ⟨[], by simp [step]⟩
  | tableRowEnd => exact ⟨[], by simp [step]⟩
  | tableCellStart => exact ⟨[], by simp [step]⟩
  | tableCellEnd => exact ⟨[], by simp [step]⟩
  | softBreak =>
    simp only [step]
    split_ifs
    · exact ⟨[], by simp⟩
    · exact push_current_line_suffix _ _ _ _
  | hardBreak =>
    simp only [step]
    split_ifs
    · exact ⟨[], by simp⟩
    · exact push_current_line_suffix _ _ _ _
  | other => exact ⟨[], by simp [step]⟩

/-- Folding the dispatch over a run of events tracks the flag automaton. -/
theorem foldl_step_flags (env : SynEnv) (terminal_width : Nat) (events : List Event) :
    ∀ s : PState,
      ((events.foldl (step env terminal_width) s).in_code_block,
        (events.foldl (step env terminal_width) s).in_table) =
        events.foldl flagStep (s.in_code_block, s.in_table) := by
  induction events with
  | nil => intro s; rfl
  | cons e es ih =>
    intro s
    simp only [List.foldl_cons]
    rw [ih, step_flags]

/-- A run of events with no H1 start leaves the slides list unchanged. -/
theorem foldl_step_slides (env : SynEnv) (terminal_width : Nat) (events : List Event) :
    ∀ s : PState, (∀ e ∈ events, isH1Start e = false) →
      (events.foldl (step env terminal_width) s).slides = s.slides := by
  induction events with
  | nil => intro s _; rfl
  | cons e es ih =>
    intro s hall
    simp only [List.foldl_cons]
    rw [ih _ (fun e he => hall e (List.mem_cons_of_mem _ he)),
      step_slides _ _ _ _ (hall e (List.mem_cons_self _ _))]

/-- A run of events with no H1 start only ever appends to the line buffer. -/
theorem foldl_step_lines_suffix (env : SynEnv) (terminal_width : Nat)
    (events : List Event) :
    ∀ s : PState, (∀ e ∈ events, isH1Start e = false) →
      ∃ t, (events.foldl (step env terminal_width) s).current_slide_lines =
        s.current_slide_lines ++ t := by
  induction events with
  | nil => intro s _; exact ⟨[], by simp⟩
  | cons e es ih =>
    intro s hall
    simp only [List.foldl_cons]
    exact append_suffix_trans
      (step_lines_suffix _ _ _ _ (hall e (List.mem_cons_self _ _)))
      (ih _ (fun e he => hall e (List.mem_cons_of_mem _ he)))

/-- The effect of an H1 heading start: the line and span buffers are cleared,
the heading flags are set, the block flags are untouched, and a slide is
committed exactly when there was buffered content. -/
theorem step_h1Start (env : SynEnv) (terminal_width : Nat) (s : PState) :
    (step env terminal_width s (.headingStart 1)).current_slide_lines = [] ∧
    (step env terminal_width s (.headingStart 1)).current_line_spans = [] ∧
    (step env terminal_width s (.headingStart 1)).heading_level = 1 ∧
    (step env terminal_width s (.headingStart 1)).in_code_block = s.in_code_block ∧
    (step env terminal_width s (.headingStart 1)).in_table = s.in_table ∧
    (step env terminal_width s (.headingStart 1)).slides.length = s.slides.length +
      (if s.current_slide_lines = [] ∧ s.current_line_spans = [] then 0 else 1) := by
  by_cases hsp : s.current_line_spans = [] <;>
    by_cases hln : s.current_slide_lines = [] <;>
      simp [step, push_current_line, finish_slide, hsp, hln]

/-- The effect of one inline event while not inside a code block or a table:
nothing structural changes (slides, line buffer, heading level, block flags),
the span buffer only ever grows, and a run-producing token (text or inline
code) makes it non-empty. -/
theorem step_inline (env : SynEnv) (terminal_width : Nat) (s : PState) (e : Event)
    (hin : isInline e = true)
    (hcb : s.in_code_block = false) (htab : s.in_table = false) :
    (step env terminal_width s e).slides = s.slides ∧
    (step env terminal_width s e).current_slide_lines = s.current_slide_lines ∧
    (step env terminal_width s e).heading_level = s.heading_level ∧
    (step env terminal_width s e).in_code_block = false ∧
    (step env terminal_width s e).in_table = false ∧
    (∃ t, (step env terminal_width s e).current_line_spans =
      s.current_line_spans ++ t) ∧
    (producesSpan e = true →
      (step env terminal_width s e).current_line_spans ≠ []) := by
  cases e <;> simp_all [step, isInline, producesSpan]

/-- Folding a run of inline events while outside code blocks and tables:
structure untouched, span buffer only grows (staying non-empty once
non-empty), and it ends non-empty when some event produces a run. -/
theorem foldl_inline (env : SynEnv) (terminal_width : Nat) (interior : List Event) :
    ∀ s : PState, (∀ e ∈ interior, isInline e = true) →
      s.in_code_block = false → s.in_table = false →
      (interior.foldl (step env terminal_width) s).slides = s.slides ∧
      (interior.foldl (step env terminal_width) s).current_slide_lines =
        s.current_slide_lines ∧
      (interior.foldl (step env terminal_width) s).heading_level = s.heading_level ∧
      (interior.foldl (step env terminal_width) s).in_code_block = false ∧
      (interior.foldl (step env terminal_width) s).in_table = false ∧
      (∃ t, (interior.foldl (step env terminal_width) s).current_line_spans =
        s.current_line_spans ++ t) ∧
      ((∃ e ∈ interior, producesSpan e = true) →
        (interior.foldl (step env terminal_width) s).current_line_spans ≠ []) ∧
      (s.current_line_spans ≠ [] →
        (interior.foldl (step env terminal_width) s).current_line_spans ≠ []) := by
  induction interior with
  | nil =>
    intro s _ hcb htab
    refine ⟨rfl, rfl, rfl, hcb, htab, ⟨[], by simp⟩, ?_, fun h => h⟩
    rintro ⟨e, he, _⟩
    exact absurd he (List.not_mem_nil e)
  | cons e es ih =>
    intro s hall hcb htab
    obtain ⟨i1, i2, i3, i4, i5, i6, i7⟩ :=
      step_inline env terminal_width s e (hall e (List.mem_cons_self _ _)) hcb htab
    obtain ⟨r1, r2, r3, r4, r5, r6, r7, r8⟩ :=
      ih (step env terminal_width s e)
        (fun e' he' => hall e' (List.mem_cons_of_mem _ he')) i4 i5
    simp only [List.foldl_cons]
    refine ⟨by rw [r1, i1], by rw [r2, i2], by rw [r3, i3], r4, r5,
      append_suffix_trans i6 r6, ?_, ?_⟩
    · rintro ⟨e', he', hp⟩
      rcases List.mem_cons.mp he' with rfl | he'
      · exact r8 (i7 hp)
      · exact r7 ⟨e', he', hp⟩
    · intro hne
      refine r8 ?_
      obtain ⟨t, ht⟩ := i6
      rw [ht]
      simp [List.append_eq_nil, hne]

/-- The effect of a heading end with a non-empty span buffer: the heading
line (and a spacing line) land in the line buffer, which becomes non-empty. -/
theorem step_headingEnd_fields (env : SynEnv) (terminal_width : Nat) (s : PState)
    (lv : Nat) (hsp : s.current_line_spans ≠ []) :
    (step env terminal_width s (.headingEnd lv)).slides = s.slides ∧
    (step env terminal_width s (.headingEnd lv)).current_slide_lines ≠ [] ∧
    (step env terminal_width s (.headingEnd lv)).in_code_block = s.in_code_block ∧
    (step env terminal_width s (.headingEnd lv)).in_table = s.in_table := by
  refine ⟨by simp [step], ?_, by simp [step], by simp [step]⟩
  simp only [step]
  exact add_spacing_ne_nil _ (push_current_line_ne_nil _ _ _ _ hsp)

/-- Processing one heading-led slide segment (an H1 heading with an inline
interior containing at least one run-producing token, then body events) from
a state with cleared block flags: exactly one slide is committed when content
was buffered (none for the very first segment), the line buffer ends
non-empty, and the block flags end cleared again when the body is balanced. -/
theorem seg_effect (env : SynEnv) (terminal_width : Nat)
    (p : List Event × List Event) (s : PState)
    (hint : ∀ e ∈ p.1, isInline e = true)
    (hprod : ∃ e ∈ p.1, producesSpan e = true)
    (hb1 : ∀ e ∈ p.2, isH1Start e = false)
    (hb2 : p.2.foldl flagStep (false, false) = (false, false))
    (hcb : s.in_code_block = false) (htab : s.in_table = false) :
    ((segEvents p).foldl (step env terminal_width) s).slides.length = s.slides.length +
      (if s.current_slide_lines = [] ∧ s.current_line_spans = [] then 0 else 1) ∧
    ((segEvents p).foldl (step env terminal_width) s).current_slide_lines ≠ [] ∧
    ((segEvents p).foldl (step env terminal_width) s).in_code_block = false ∧
    ((segEvents p).foldl (step env terminal_width) s).in_table = false := by
  obtain ⟨e1a, e1b, e1c, e1d, e1e, e1f⟩ := step_h1Start env terminal_width s
  obtain ⟨m1, m2, m3, m4, m5, m6, m7, m8⟩ :=
    foldl_inline env terminal_width p.1 (step env terminal_width s (.headingStart 1))
      hint (by rw [e1d, hcb]) (by rw [e1e, htab])
  obtain ⟨e3a, e3b, e3c, e3d⟩ :=
    step_headingEnd_fields env terminal_width
      (p.1.foldl (step env terminal_width) (step env terminal_width s (.headingStart 1)))
      1 (m7 hprod)
  have hdecomp : (segEvents p).foldl (step env terminal_width) s =
      p.2.foldl (step env terminal_width)
        (step env terminal_width
          (p.1.foldl (step env terminal_width)
            (step env terminal_width s (.headingStart 1)))
          (.headingEnd 1)) := by
    simp [segEvents, List.foldl_append]
  rw [hdecomp]
  refine ⟨?_, ?_, ?_, ?_⟩
  · rw [foldl_step_slides env terminal_width p.2 _ hb1, e3a, m1, e1f]
  · obtain ⟨tl, htl⟩ := foldl_step_lines_suffix env terminal_width p.2 _ hb1
    rw [htl]
    simp [List.append_eq_nil, e3b]
  · have hfl := foldl_step_flags env terminal_width p.2
      (step env terminal_width
        (p.1.foldl (step env terminal_width)
          (step env terminal_width s (.headingStart 1)))
        (.headingEnd 1))
    rw [e3c, e3d, m4, m5, hb2] at hfl
    exact (Prod.ext_iff.mp hfl).1
  · have hfl := foldl_step_flags env terminal_width p.2
      (step env terminal_width
        (p.1.foldl (step env terminal_width)
          (step env terminal_width s (.headingStart 1)))
        (.headingEnd 1))
    rw [e3c, e3d, m4, m5, hb2] at hfl
    exact (Prod.ext_iff.mp hfl).2

/-- Processing a run of heading-led slide segments from a state with a
non-empty line buffer and cleared block flags commits exactly one slide per
segment. -/
theorem doc_effect (env : SynEnv) (terminal_width : Nat)
    (segs : List (List Event × List Event)) :
    ∀ s : PState, (∀ p ∈ segs, SegOK p) →
      s.in_code_block = false → s.in_table = false → s.current_slide_lines ≠ [] →
      ((docEvents segs).foldl (step env terminal_width) s).slides.length =
          s.slides.length + segs.length ∧
        ((docEvents segs).foldl (step env terminal_width) s).current_slide_lines ≠ [] ∧
        ((docEvents segs).foldl (step env terminal_width) s).in_code_block = false ∧
        ((docEvents segs).foldl (step env terminal_width) s).in_table = false := by
  induction segs with
  | nil =>
    intro s _ hcb htab hln
    exact ⟨by simp [docEvents], hln, hcb, htab⟩
  | cons p rest ih =>
    intro s hOK hcb htab hln
    obtain ⟨hint, hprod, hb1, hb2⟩ := hOK p (List.mem_cons_self _ _)
    obtain ⟨g1, g2, g3, g4⟩ :=
      seg_effect env terminal_width p s hint hprod hb1 hb2 hcb htab
    have g1' : ((segEvents p).foldl (step env terminal_width) s).slides.length =
        s.slides.length + 1 := by
      rw [g1, if_neg (fun hc => hln hc.1)]
    obtain ⟨r1, r2, r3, r4⟩ := ih ((segEvents p).foldl (step env terminal_width) s)
      (fun q hq => hOK q (List.mem_cons_of_mem _ hq)) g3 g4 g2
    have hfold : (docEvents (p :: rest)).foldl (step env terminal_width) s =
        (docEvents rest).foldl (step env terminal_width)
          ((segEvents p).foldl (step env terminal_width) s) := by
      rw [show docEvents (p :: rest) = segEvents p ++ docEvents rest from rfl,
        List.foldl_append]
    rw [hfold]
    refine ⟨?_, r2, r3, r4⟩
    rw [r1, g1']
    simp [List.length_cons]
    omega

/-- When the final loop state has a non-empty line buffer, the returned deck
is the committed slides plus the final one (and no placeholder is used). -/
theorem parse_length_of_lines_ne_nil (env : SynEnv) (terminal_width : Nat)
    (events : List Event)
    (h : (events.foldl (step env terminal_width) initState).current_slide_lines ≠ []) :
    (parse_markdown_to_slides env terminal_width events).length =
      (events.foldl (step env terminal_width) initState).slides.length + 1 := by
  unfold parse_markdown_to_slides
  have hp : (push_current_line terminal_width
      (events.foldl (step env terminal_width) initState).current_slide_lines
      (events.foldl (step env terminal_width) initState).current_line_spans false).1 ≠ [] :=
    push_preserves_ne _ _ _ _ h
  simp only [finish_slide, if_neg hp]
  rw [if_neg (by simp)]
  simp

/-- The display width contributed by the cell of `row` at column `i`: the
cell's display width when the cell exists, nothing (0) otherwise. -/
def cellW (row : List String) (i : Nat) : Nat :=
  ((row.get? i).map displayWidth).getD 0

/-- The maximum display width of any cell at column `i` across all rows. -/
def maxCellWidth (rows : List (List String)) (i : Nat) : Nat :=
  rows.foldl (fun m r => max m (cellW r i)) 0

/-- One width-update pass preserves the length of the width table. -/
theorem updateRowWidths_length (ws : List Nat) (row : List String) :
    (updateRowWidths ws row).length = ws.length := by
  induction ws generalizing row with
  | nil => cases row <;> simp [updateRowWidths]
  | cons w ws ih =>
    cases row with
    | nil => simp [updateRowWidths]
    | cons c cs => simp [updateRowWidths, ih]

/-- One width-update pass takes the pointwise maximum with the row's cells. -/
theorem updateRowWidths_getD (ws : List Nat) (row : List String) (i : Nat)
    (h : i < ws.length) :
    (updateRowWidths ws row).getD i 0 = max (ws.getD i 0) (cellW row i) := by
  induction ws generalizing row i with
  | nil => simp at h
  | cons w ws ih =>
    cases row with
    | nil => simp [updateRowWidths, cellW]
    | cons c cs =>
      cases i with
      | zero => simp [updateRowWidths, cellW]
      | succ i =>
        simp only [updateRowWidths, List.getD_cons_succ]
        rw [ih cs i (by simpa using h)]
        rfl

/-- Folding the width-update over rows computes, at each in-range index, the
running maximum of the cells at that column. -/
theorem foldl_updateRowWidths_getD (rows : List (List String)) (ws : List Nat)
    (i : Nat) (h : i < ws.length) :
    (rows.foldl updateRowWidths ws).getD i 0 =
      rows.foldl (fun m r => max m (cellW r i)) (ws.getD i 0) := by
  induction rows generalizing ws with
  | nil => rfl
  | cons r rows ih =>
    simp only [List.foldl_cons]
    rw [ih (updateRowWidths ws r) (by rw [updateRowWidths_length]; exact h),
      updateRowWidths_getD ws r i h]

/-- Folding the width-update preserves the width-table length. -/
theorem foldl_updateRowWidths_length (rows : List (List String)) (ws : List Nat) :
    (rows.foldl updateRowWidths ws).length = ws.length := by
  induction rows generalizing ws with
  | nil => rfl
  | cons r rows ih => rw [List.foldl_cons, ih, updateRowWidths_length]

/-- A replicated-zero width table reads zero at every index. -/
theorem replicate_zero_getD (n i : Nat) : (List.replicate n (0 : Nat)).getD i 0 = 0 := by
  induction n generalizing i with
  | zero => simp
  | succ n ih =>
    cases i with
    | zero => simp [List.replicate]
    | succ i => simp [List.replicate, ih i]

/-- The computed width table has one entry per column. -/
theorem computeColWidths_length (rows : List (List String)) :
    (computeColWidths rows).length = numCols rows := by
  rw [computeColWidths, foldl_updateRowWidths_length, List.length_replicate]

/-- Each computed column width is the maximum display width of the cells in
that column. -/
theorem computeColWidths_getD (rows : List (List String)) (i : Nat)
    (h : i < numCols rows) :
    (computeColWidths rows).getD i 0 = maxCellWidth rows i := by
  rw [computeColWidths,
    foldl_updateRowWidths_getD rows _ i (by simpa using h),
    replicate_zero_getD, maxCellWidth]

/-- The dash segments of a border line are exactly one `width + 2` dash run
per column, interspersed with the junction character. -/
theorem borderMids_intersperse (m : String) (ws : List Nat) :
    borderMids m ws =
      (ws.map (fun w => grayS (dashes (w + 2)))).intersperse (grayS m) := by
  induction ws with
  | nil => rfl
  | cons w ws ih =>
    cases ws with
    | nil => rfl
    | cons w2 ws2 =>
      simp only [borderMids]
      rw [ih]
      simp [List.intersperse]

/-- A dash run of length `n` consists of exactly `n` dash characters. -/
theorem dashes_data (n : Nat) : (dashes n).data = List.replicate n '─' := rfl

/-- The rendered data rows are the row lines interspersed with exactly one
separator line between each pair of consecutive rows (none after the last). -/
theorem rowsWithSeps_intersperse (ws : List Nat) (rows : List (List String)) :
    rowsWithSeps ws rows =
      (rows.map (rowLine ws)).intersperse (borderLine "├" "┼" "┤" ws) := by
  induction rows with
  | nil => rfl
  | cons r rest ih =>
    cases rest with
    | nil => rfl
    | cons r2 rest2 =>
      simp only [rowsWithSeps]
      rw [ih]
      simp [List.intersperse]

/-- For a non-empty row list, the rendered rows-with-separators section has
`rows + (rows − 1)` lines: the data rows plus one separator per adjacent pair. -/
theorem rowsWithSeps_length (ws : List Nat) (rows : List (List String))
    (h : rows ≠ []) :
    (rowsWithSeps ws rows).length = rows.length + (rows.length - 1) := by
  induction rows with
  | nil => exact absurd rfl h
  | cons r rest ih =>
    cases rest with
    | nil => rfl
    | cons r2 rest2 =>
      have := ih (by simp)
      simp only [rowsWithSeps, List.length_cons] at this ⊢
      omega

/-- The table body rendered for a non-empty row list is never empty. -/
theorem renderTable_ne_nil (rows : List (List String)) : renderTable rows ≠ [] := by
  simp [renderTable]

/-- C8: for a table end with at least one accumulated row, the handler
appends the rendered table followed by one spacing line; the width table has
one entry per column, each equal to the maximum display width of the cells
in that column; every border line carries per column a run of exactly
`width + 2` dash characters separated by junctions; and the data rows are
interspersed with exactly `row count − 1` separator lines. Concretely, rows
`[["a","bb"],["ccc","d"]]` yield column widths `[3, 2]`. -/
theorem c8_table_rendering (env : SynEnv) (terminal_width : Nat) (s : PState)
    (h : s.table_rows ≠ []) :
    (step env terminal_width s .tableEnd).current_slide_lines =
      (s.current_slide_lines ++ renderTable s.table_rows) ++ [emptyLine] ∧
    (computeColWidths s.table_rows).length = numCols s.table_rows ∧
    (∀ i, i < numCols s.table_rows →
      (computeColWidths s.table_rows).getD i 0 = maxCellWidth s.table_rows i) ∧
    (∀ m, borderMids m (computeColWidths s.table_rows) =
      ((computeColWidths s.table_rows).map
        (fun w => grayS (dashes (w + 2)))).intersperse (grayS m)) ∧
    (∀ w, (dashes (w + 2)).data = List.replicate (w + 2) '─') ∧
    rowsWithSeps (computeColWidths s.table_rows) s.table_rows =
      (s.table_rows.map (rowLine (computeColWidths s.table_rows))).intersperse
        (borderLine "├" "┼" "┤" (computeColWidths s.table_rows)) ∧
    (rowsWithSeps (computeColWidths s.table_rows) s.table_rows).length =
      s.table_rows.length + (s.table_rows.length - 1) ∧
    computeColWidths [["a", "bb"], ["ccc", "d"]] = [3, 2] := by
  refine ⟨?_, computeColWidths_length _, computeColWidths_getD _,
    fun m => borderMids_intersperse m _, fun w => dashes_data _,
    rowsWithSeps_intersperse _ _, rowsWithSeps_length _ _ h, by decide⟩
  have hne : s.current_slide_lines ++ renderTable s.table_rows ≠ [] := by
    simp [renderTable]
  simp [step, h, add_spacing, hne]

/-- A concrete parser state at a table end with the two example rows. -/
def c8state : PState :=
  { initState with
      in_table := true,
      table_rows := [["a", "bb"], ["ccc", "d"]] }

/-- Witness for C8 at the example table. -/
theorem c8_table_rendering_witness :
    c8state.table_rows ≠ [] ∧
    (step env0 80 c8state .tableEnd).current_slide_lines =
      (c8state.current_slide_lines ++ renderTable c8state.table_rows) ++ [emptyLine] ∧
    computeColWidths [["a", "bb"], ["ccc", "d"]] = [3, 2] :=
  ⟨by decide, (c8_table_rendering env0 80 c8state (by decide)).1,
    (c8_table_rendering env0 80 c8state (by decide)).2.2.2.2.2.2.2⟩

/-- Witness for C9: an unrecognized tag "zzz" with two source lines yields
two single-run green lines. -/
theorem c9_no_grammar_fallback_witness :
    env0.findSyntaxByToken "zzz" = none ∧
    env0.findSyntaxByExtension (aliasExt "zzz") = none ∧
    (step env0 80 c9state .codeBlockEnd).current_slide_lines =
      add_spacing (c9state.current_slide_lines ++
        (rustLines c9state.code_block_content).map
          (fun l => [⟨l, { fg := some .green }⟩])) :=
  ⟨rfl, rfl,
    (c9_no_grammar_fallback env0 80 c9state ⟨rfl, rfl⟩).1⟩

/-- Counterexample for C4 as stated: the token stream of the markdown
document "#\n# B" has two top-level headings and no content before the first,
yet produces one slide, not two — the first heading carries no text, so no
line is buffered and no slide boundary is committed for it. -/
theorem c4_empty_heading_cex :
    countH1 [Event.headingStart 1, .headingEnd 1,
      .headingStart 1, .text "B", .headingEnd 1] = 2 ∧
    ([Event.headingStart 1, .headingEnd 1,
      .headingStart 1, .text "B", .headingEnd 1].head? = some (.headingStart 1)) ∧
    (parse_markdown_to_slides env0 80
      [.headingStart 1, .headingEnd 1,
        .headingStart 1, .text "B", .headingEnd 1]).length = 1 ∧
    ¬ (parse_markdown_to_slides env0 80
      [.headingStart 1, .headingEnd 1,
        .headingStart 1, .text "B", .headingEnd 1]).length = 2 := by decide

/-- C4 amended: for every well-formed token stream made of N ≥ 1 segments,
each an H1 heading whose interior is any run of inline events (text, inline
code, strong/emphasis delimiters, ignored tokens) containing at least one
text or inline-code token, followed by body events that contain no H1 start
and leave the code-block and table flags balanced, the deck has exactly N
slides. (The well-formedness is what the tokenizer guarantees for a document
with no content before the first heading; the amendment adds that each
heading must contain a run-producing token, since a heading that produces no
run commits no slide boundary.) -/
theorem c4_slide_count (env : SynEnv) (terminal_width : Nat)
    (segs : List (List Event × List Event)) (hne : segs ≠ [])
    (hOK : ∀ p ∈ segs, SegOK p) :
    (parse_markdown_to_slides env terminal_width (docEvents segs)).length =
      segs.length := by
  obtain ⟨p, rest, rfl⟩ := List.exists_cons_of_ne_nil hne
  obtain ⟨hint, hprod, hb1, hb2⟩ := hOK p (List.mem_cons_self _ _)
  obtain ⟨g1, g2, g3, g4⟩ :=
    seg_effect env terminal_width p initState hint hprod hb1 hb2 rfl rfl
  have g1' : ((segEvents p).foldl (step env terminal_width) initState).slides.length = 0 := by
    rw [g1]
    rfl
  obtain ⟨r1, r2, r3, r4⟩ := doc_effect env terminal_width rest
    ((segEvents p).foldl (step env terminal_width) initState)
    (fun q hq => hOK q (List.mem_cons_of_mem _ hq)) g3 g4 g2
  have hfold : (docEvents (p :: rest)).foldl (step env terminal_width) initState =
      (docEvents rest).foldl (step env terminal_width)
        ((segEvents p).foldl (step env terminal_width) initState) := by
    rw [show docEvents (p :: rest) = segEvents p ++ docEvents rest from rfl,
      List.foldl_append]
  rw [parse_length_of_lines_ne_nil env terminal_width _ (by rw [hfold]; exact r2),
    hfold, r1, g1']
  simp [List.length_cons]

/-- Witness for the amended C4: three slides — a plain title, a title wrapped
in strong delimiters, and a title that is a single inline-code token — yield
a three-slide deck. -/
theorem c4_slide_count_witness :
    ([([.text "A"], []), ([.strongStart, .text "B", .strongEnd], []),
      ([.code "c"], [])] : List (List Event × List Event)) ≠ [] ∧
    (∀ p ∈ ([([.text "A"], []), ([.strongStart, .text "B", .strongEnd], []),
      ([.code "c"], [])] : List (List Event × List Event)), SegOK p) ∧
    (parse_markdown_to_slides env0 80
      (docEvents [([.text "A"], []), ([.strongStart, .text "B", .strongEnd], []),
        ([.code "c"], [])])).length = 3 :=
  ⟨by decide, by decide,
    c4_slide_count env0 80
      [([.text "A"], []), ([.strongStart, .text "B", .strongEnd], []),
        ([.code "c"], [])] (by decide) (by decide)⟩


end Presentrs
